import Mathlib

/-!
Shallow embedding of the Rate Aggregation & Valuation Engine of the
valutatrade_hub repository (parser_service/updater.py, parser_service/storage.py,
core/usecases.py, core/models.py, core/utils.py, core/currencies.py), together
with theorems settling the frozen claims about it.

Python values flowing through the JSON cache are modelled by an inductive
JSON type; Python dicts are modelled as insertion-ordered association lists
with Python's dict-update semantics; floats are modelled as rationals;
datetimes are modelled as rational epoch seconds obtained by a faithful
subset of datetime.fromisoformat.
-/

set_option maxRecDepth 4000

namespace VTH

/-- JSON values as produced by json.load / consumed by json.dump.
Numbers are modelled as rationals (Python ints and finite floats). -/
inductive Json where
  | null
  | bool (b : Bool)
  | num (q : ℚ)
  | str (s : String)
  | arr (items : List Json)
  | obj (fields : List (String × Json))
deriving Repr

mutual

/-- Decidable equality on JSON values (the nested lists prevent deriving). -/
def Json.decEq : (a b : Json) → Decidable (a = b)
  | .null, .null => isTrue rfl
  | .bool a, .bool b =>
      if h : a = b then isTrue (by rw [h])
      else isFalse (by intro hc; cases hc; exact h rfl)
  | .num a, .num b =>
      if h : a = b then isTrue (by rw [h])
      else isFalse (by intro hc; cases hc; exact h rfl)
  | .str a, .str b =>
      if h : a = b then isTrue (by rw [h])
      else isFalse (by intro hc; cases hc; exact h rfl)
  | .arr a, .arr b =>
      match Json.decEqList a b with
      | isTrue h => isTrue (by rw [h])
      | isFalse h => isFalse (by intro hc; cases hc; exact h rfl)
  | .obj a, .obj b =>
      match Json.decEqFields a b with
      | isTrue h => isTrue (by rw [h])
      | isFalse h => isFalse (by intro hc; cases hc; exact h rfl)
  | .null, .bool _ => isFalse (by intro h; cases h)
  | .null, .num _ => isFalse (by intro h; cases h)
  | .null, .str _ => isFalse (by intro h; cases h)
  | .null, .arr _ => isFalse (by intro h; cases h)
  | .null, .obj _ => isFalse (by intro h; cases h)
  | .bool _, .null => isFalse (by intro h; cases h)
  | .bool _, .num _ => isFalse (by intro h; cases h)
  | .bool _, .str _ => isFalse (by intro h; cases h)
  | .bool _, .arr _ => isFalse (by intro h; cases h)
  | .bool _, .obj _ => isFalse (by intro h; cases h)
  | .num _, .null => isFalse (by intro h; cases h)
  | .num _, .bool _ => isFalse (by intro h; cases h)
  | .num _, .str _ => isFalse (by intro h; cases h)
  | .num _, .arr _ => isFalse (by intro h; cases h)
  | .num _, .obj _ => isFalse (by intro h; cases h)
  | .str _, .null => isFalse (by intro h; cases h)
  | .str _, .bool _ => isFalse (by intro h; cases h)
  | .str _, .num _ => isFalse (by intro h; cases h)
  | .str _, .arr _ => isFalse (by intro h; cases h)
  | .str _, .obj _ => isFalse (by intro h; cases h)
  | .arr _, .null => isFalse (by intro h; cases h)
  | .arr _, .bool _ => isFalse (by intro h; cases h)
  | .arr _, .num _ => isFalse (by intro h; cases h)
  | .arr _, .str _ => isFalse (by intro h; cases h)
  | .arr _, .obj _ => isFalse (by intro h; cases h)
  | .obj _, .null => isFalse (by intro h; cases h)
  | .obj _, .bool _ => isFalse (by intro h; cases h)
  | .obj _, .num _ => isFalse (by intro h; cases h)
  | .obj _, .str _ => isFalse (by intro h; cases h)
  | .obj _, .arr _ => isFalse (by intro h; cases h)

/-- Decidable equality on lists of JSON values. -/
def Json.decEqList : (a b : List Json) → Decidable (a = b)
  | [], [] => isTrue rfl
  | [], _ :: _ => isFalse (by intro h; cases h)
  | _ :: _, [] => isFalse (by intro h; cases h)
  | x :: xs, y :: ys =>
      match Json.decEq x y with
      | isFalse h => isFalse (by intro hc; cases hc; exact h rfl)
      | isTrue h1 =>
          match Json.decEqList xs ys with
          | isTrue h2 => isTrue (by rw [h1, h2])
          | isFalse h2 => isFalse (by intro hc; cases hc; exact h2 rfl)

/-- Decidable equality on JSON object field lists. -/
def Json.decEqFields : (a b : List (String × Json)) → Decidable (a = b)
  | [], [] => isTrue rfl
  | [], _ :: _ => isFalse (by intro h; cases h)
  | _ :: _, [] => isFalse (by intro h; cases h)
  | (k, v) :: xs, (k', v') :: ys =>
      if hk : k = k' then
          match Json.decEq v v' with
          | isFalse h => isFalse (by intro hc; cases hc; exact h rfl)
          | isTrue hv =>
              match Json.decEqFields xs ys with
              | isTrue ht => isTrue (by rw [hk, hv, ht])
              | isFalse ht => isFalse (by intro hc; cases hc; exact ht rfl)
      else isFalse (by intro hc; cases hc; exact hk rfl)

end

instance : DecidableEq Json := Json.decEq

/-- Python truthiness of a JSON value: None, False, 0, empty string,
empty list and empty dict are falsy, everything else truthy. -/
def truthy : Json → Bool
  | .null => false
  | .bool b => b
  | .num q => q ≠ 0
  | .str s => s ≠ ""
  | .arr items => ¬ items.isEmpty
  | .obj fields => ¬ fields.isEmpty

/-- Python dict lookup d.get(k): the value stored under the first (unique)
occurrence of the key in insertion order. -/
def dget {α : Type} (fields : List (String × α)) (k : String) : Option α :=
  match fields with
  | [] => none
  | (k', v) :: rest => if k' = k then some v else dget rest k

/-- Python dict assignment d[k] = v: replace the value in place if the key
is present, otherwise append the new key at the end (insertion order). -/
def dset {α : Type} (fields : List (String × α)) (k : String) (v : α) :
    List (String × α) :=
  match fields with
  | [] => [(k, v)]
  | (k', v') :: rest =>
      if k' = k then (k', v) :: rest else (k', v') :: dset rest k v

/-- Membership test k in d for a Python dict. -/
def dmem {α : Type} (fields : List (String × α)) (k : String) : Bool :=
  (dget fields k).isSome

theorem dget_dset_self {α : Type} (fields : List (String × α)) (k : String) (v : α) :
    dget (dset fields k v) k = some v := by
  induction fields with
  | nil => simp [dget, dset]
  | cons hd tl ih =>
      obtain ⟨k', v'⟩ := hd
      by_cases h : k' = k <;> simp [dget, dset, h, ih]

theorem dget_dset_other {α : Type} (fields : List (String × α)) (k k' : String)
    (v : α) (hne : k ≠ k') :
    dget (dset fields k v) k' = dget fields k' := by
  induction fields with
  | nil => simp [dget, dset, hne]
  | cons hd tl ih =>
      obtain ⟨k'', v''⟩ := hd
      by_cases h : k'' = k
      · subst h; simp [dget, dset, hne]
      · simp [dget, dset, h, ih]

/-- Python default whitespace for str.strip (ASCII subset). -/
def isPySpace (c : Char) : Bool :=
  c = ' ' ∨ c = '\t' ∨ c = '\n' ∨ c = '\r' ∨ c = '\x0b' ∨ c = '\x0c'

/-- Python str.strip() with no arguments (ASCII whitespace). -/
def pyStrip (s : String) : String :=
  String.mk (((s.data.dropWhile isPySpace).reverse.dropWhile isPySpace).reverse)

/-- Python str.upper() on ASCII data. -/
def pyUpper (s : String) : String := String.mk (s.data.map Char.toUpper)

/-- Python str.lower() on ASCII data. -/
def pyLower (s : String) : String := String.mk (s.data.map Char.toLower)

/-! ### Datetime model

Aware datetimes are modelled as integer microseconds since the Unix epoch
(UTC) - Python datetimes have exactly microsecond precision.  fromisoformat
implements the subset of datetime.fromisoformat actually exercised by the
repository: "YYYY-MM-DD", optionally followed by a one-char separator and
"HH[:MM[:SS[.ffffff]]]", optionally followed by a "+HH:MM" or "-HH:MM"
offset.  A naive result is treated as UTC, exactly as parse_iso_datetime
does with tzinfo replacement. -/

/-- Parse exactly n leading decimal digits into a number, returning the rest. -/
def fixedDigits : Nat → Nat → List Char → Option (Nat × List Char)
  | acc, 0, cs => some (acc, cs)
  | _, _ + 1, [] => none
  | acc, n + 1, c :: cs =>
      if c.isDigit then fixedDigits (acc * 10 + (c.toNat - 48)) n cs else none

/-- Consume up to six fractional-second digits: value, digit count, rest. -/
def fracRun : Nat → Nat → List Char → Nat × Nat × List Char
  | acc, cnt, [] => (acc, cnt, [])
  | acc, cnt, c :: cs =>
      if c.isDigit ∧ cnt < 6 then fracRun (acc * 10 + (c.toNat - 48)) (cnt + 1) cs
      else (acc, cnt, c :: cs)

/-- Gregorian leap-year test. -/
def isLeap (y : Nat) : Bool := y % 4 = 0 ∧ (y % 100 ≠ 0 ∨ y % 400 = 0)

/-- Number of days in a month. -/
def daysInMonth (y m : Nat) : Nat :=
  if m = 2 then (if isLeap y then 29 else 28)
  else if m = 4 ∨ m = 6 ∨ m = 9 ∨ m = 11 then 30
  else 31

/-- Days since the Unix epoch of a civil date (valid for year ≥ 1). -/
def daysFromCivil (y m d : Nat) : Int :=
  let y' : Nat := if m ≤ 2 then y - 1 else y
  let era := y' / 400
  let yoe := y' % 400
  let doy := (153 * (if 2 < m then m - 3 else m + 9) + 2) / 5 + (d - 1)
  let doe := yoe * 365 + yoe / 4 - yoe / 100 + doy
  (era * 146097 + doe : Int) - 719468

/-- Optional fractional-second part ".ffffff" (1 to 6 digits), in
microseconds. -/
def parseFracPart : List Char → Option (Nat × List Char)
  | '.' :: cs =>
      match fracRun 0 0 cs with
      | (v, cnt, rest) =>
          if 1 ≤ cnt then some (v * 10 ^ (6 - cnt), rest) else none
  | cs => some (0, cs)

/-- Optional seconds part ":SS[.ffffff]", in microseconds. -/
def parseSecondPart (cs : List Char) : Option (Nat × List Char) :=
  match cs with
  | ':' :: rest => do
      let (sec, r) ← fixedDigits 0 2 rest
      if sec ≤ 59 then do
        let (f, r2) ← parseFracPart r
        pure (sec * 1000000 + f, r2)
      else none
  | _ => some (0, cs)

/-- Optional minutes part ":MM[:SS[.ffffff]]", in microseconds. -/
def parseMinutePart (cs : List Char) : Option (Nat × List Char) :=
  match cs with
  | ':' :: rest => do
      let (mi, r) ← fixedDigits 0 2 rest
      if mi ≤ 59 then do
        let (s, r2) ← parseSecondPart r
        pure (mi * 60000000 + s, r2)
      else none
  | _ => some (0, cs)

/-- Time of day "HH[:MM[:SS[.ffffff]]]" in microseconds. -/
def parseTimeOfDay (cs : List Char) : Option (Nat × List Char) := do
  let (h, r) ← fixedDigits 0 2 cs
  if h ≤ 23 then do
    let (ms, r2) ← parseMinutePart r
    pure (h * 3600000000 + ms, r2)
  else none

/-- UTC offset "+HH:MM" or "-HH:MM" in microseconds; absent means naive (0,
matching the tzinfo-replacement with UTC in parse_iso_datetime). -/
def parseOffsetPart : List Char → Option ℤ
  | [] => some 0
  | sign :: cs =>
      if sign = '+' ∨ sign = '-' then do
        let (oh, r) ← fixedDigits 0 2 cs
        match r with
        | ':' :: r2 => do
            let (om, r3) ← fixedDigits 0 2 r2
            if r3 = [] ∧ oh ≤ 23 ∧ om ≤ 59 then
              some ((if sign = '-' then (-1 : ℤ) else 1)
                * ((oh : ℤ) * 3600000000 + (om : ℤ) * 60000000))
            else none
        | _ => none
      else none

/-- datetime.fromisoformat (the subset described above), as epoch
microseconds. -/
def fromisoformat (s : String) : Option ℤ := do
  let (y, r1) ← fixedDigits 0 4 s.data
  match r1 with
  | '-' :: r2 => do
      let (mo, r3) ← fixedDigits 0 2 r2
      match r3 with
      | '-' :: r4 => do
          let (d, r5) ← fixedDigits 0 2 r4
          if 1 ≤ y ∧ 1 ≤ mo ∧ mo ≤ 12 ∧ 1 ≤ d ∧ d ≤ daysInMonth y mo then
            match r5 with
            | [] => some (daysFromCivil y mo d * 86400000000)
            | _sep :: r6 => do
                let (tod, r7) ← parseTimeOfDay r6
                let off ← parseOffsetPart r7
                some (daysFromCivil y mo d * 86400000000 + (tod : ℤ) - off)
          else none
      | _ => none
  | _ => none

/-- core/utils.py parse_iso_datetime: None unless the value is a string that
parses as an ISO date; a naive result is made aware by attaching UTC. -/
def parse_iso_datetime : Json → Option ℤ
  | .str s => fromisoformat s
  | _ => none

/-! ### Python float() coercion -/

/-- Consume a run of decimal digits: value, digit count, rest. -/
def digitsRun : Nat → Nat → List Char → Nat × Nat × List Char
  | acc, cnt, [] => (acc, cnt, [])
  | acc, cnt, c :: cs =>
      if c.isDigit then digitsRun (acc * 10 + (c.toNat - 48)) (cnt + 1) cs
      else (acc, cnt, c :: cs)

/-- Decimal exponent part "(e|E)[+|-]digits", applied to a mantissa. -/
def applyExponent (mant : ℚ) : List Char → Option ℚ
  | [] => some mant
  | c :: cs =>
      if c = 'e' ∨ c = 'E' then
        let (sgn, cs') :=
          match cs with
          | '+' :: r => ((1 : ℤ), r)
          | '-' :: r => ((-1 : ℤ), r)
          | r => ((1 : ℤ), r)
        match digitsRun 0 0 cs' with
        | (e, cnt, rest) =>
            if 1 ≤ cnt ∧ rest = [] then some (mant * (10 : ℚ) ^ (sgn * (e : ℤ))) else none
      else none

/-- Python float(string) on finite decimal literals: optional sign, digits
with an optional point, optional exponent; surrounding whitespace stripped.
Non-finite literals (inf, nan) and underscore grouping are outside the model. -/
def pyFloatOfString (s : String) : Option ℚ := do
  let cs := (pyStrip s).data
  let (sgn, cs1) :=
    match cs with
    | '+' :: r => ((1 : ℚ), r)
    | '-' :: r => ((-1 : ℚ), r)
    | r => ((1 : ℚ), r)
  match digitsRun 0 0 cs1 with
  | (ip, icnt, r1) =>
      match r1 with
      | '.' :: r2 =>
          match digitsRun 0 0 r2 with
          | (fp, fcnt, r3) =>
              if 1 ≤ icnt + fcnt then do
                let v ← applyExponent ((ip : ℚ) + (fp : ℚ) / (10 : ℚ) ^ fcnt) r3
                pure (sgn * v)
              else none
      | _ =>
          if 1 ≤ icnt then do
            let v ← applyExponent (ip : ℚ) r1
            pure (sgn * v)
          else none

/-- Python float(x) on a JSON value: numbers and bools convert, numeric
strings are parsed, everything else raises (None result). -/
def pyFloat : Json → Option ℚ
  | .num q => some q
  | .bool b => some (if b then 1 else 0)
  | .str s => pyFloatOfString s
  | _ => none

/-! ### Storage (parser_service/storage.py)

Files are modelled after parsing: json.dump stores the serialized form of a
JSON value, json.load recovers exactly that value; a file whose bytes do not
parse is `corrupt`.  Python's json stdlib is an external primitive treated as
an exact round-trip on the values this system writes. -/

/-- On-disk content of one file. -/
inductive FileContent where
  | corrupt (raw : String)
  | json (v : Json)
deriving Repr, DecidableEq

/-- The file-system state seen by RatesStorage: the rates file, the history
file, and the temporary paths used by _atomic_write. -/
structure FS where
  rates : Option FileContent
  ratesTmp : Option FileContent
  history : Option FileContent
  historyTmp : Option FileContent
deriving Repr, DecidableEq

/-- The empty cache returned when the rates file is absent or unparseable. -/
def emptyRatesJson : Json := .obj [("pairs", .obj []), ("last_refresh", .null)]

/-- RatesStorage.read_rates: absent file or JSONDecodeError yields the empty
cache; otherwise the parsed JSON value. -/
def read_rates (fs : FS) : Json :=
  match fs.rates with
  | none => emptyRatesJson
  | some (.corrupt _) => emptyRatesJson
  | some (.json v) => v

/-- RatesStorage._atomic_write on the rates path: dump to the temporary
path, then rename it over the target. -/
def atomic_write_rates (fs : FS) (data : Json) : FS :=
  let fs1 := { fs with ratesTmp := some (.json data) }
  { fs1 with rates := fs1.ratesTmp, ratesTmp := none }

/-- RatesStorage.write_rates. -/
def write_rates (fs : FS) (data : Json) : FS := atomic_write_rates fs data

/-- RatesStorage._read_history: absent file, JSONDecodeError, or valid JSON
that is not a list all yield the empty list. -/
def read_history_file (fs : FS) : List Json :=
  match fs.history with
  | none => []
  | some (.corrupt _) => []
  | some (.json (.arr xs)) => xs
  | some (.json _) => []

/-- RatesStorage._atomic_write on the history path. -/
def atomic_write_history (fs : FS) (data : Json) : FS :=
  let fs1 := { fs with historyTmp := some (.json data) }
  { fs1 with history := fs1.historyTmp, historyTmp := none }

/-- RatesStorage.append_history: read-modify-atomic-write of the history log. -/
def append_history (fs : FS) (records : List Json) : FS :=
  atomic_write_history fs (.arr (read_history_file fs ++ records))

/-- A valid persisted cache value in the sense of the external interface
(spec section 6): an object whose "pairs" is an object of entries each with a
numeric rate and a string updated_at, and whose "last_refresh" is a string or
null. -/
def validCache (j : Json) : Bool :=
  match j with
  | .obj fields =>
      (match dget fields "pairs" with
       | some (.obj ps) =>
           ps.all fun kv =>
             match kv.2 with
             | .obj e =>
                 (match dget e "rate" with
                  | some (.num _) => true
                  | _ => false)
                 && (match dget e "updated_at" with
                     | some (.str _) => true
                     | _ => false)
             | _ => false
       | _ => false)
      && (match dget fields "last_refresh" with
          | some (.str _) => true
          | some .null => true
          | _ => false)
  | _ => false

/-! ### Updater (parser_service/updater.py) -/

/-- Python exceptions raised by the modelled code. -/
inductive PyError where
  | apiRequestError (reason : String)
  | valueError (msg : String)
  | currencyNotFoundError (code : String)
  | typeError
  | attributeError
  | zeroDivisionError
deriving Repr, DecidableEq

/-- str() of core/exceptions.py ApiRequestError. -/
def apiRequestErrorStr (reason : String) : String :=
  "Ошибка при обращении к внешнему API: " ++ reason

/-- RatesUpdater._normalize_source: lower-case the name and apply
SOURCE_ALIASES. -/
def _normalize_source (name : String) : String :=
  let low := pyLower name
  if low = "exchangerate-api" then "exchangerate" else low

/-- One API client as seen by run_update in one cycle: its source_name
attribute, the outcome of its single fetch_rates() call (an ApiRequestError
reason, or the returned dict "FROM_TO" -> payload in iteration order), and
the UTC ISO timestamp datetime.now samples right after a successful fetch. -/
structure Client where
  sourceName : String
  fetchResult : Except String (List (String × Json))
  fetchedAt : String

/-- Split a pair string at the first underscore, as pair.split("_", 1) with
a two-element unpacking; None models the unpacking ValueError when the
separator is absent. -/
def splitOnceAux (acc : List Char) : List Char → Option (String × String)
  | [] => none
  | '_' :: rest => some (String.mk acc.reverse, String.mk rest)
  | c :: rest => splitOnceAux (c :: acc) rest

/-- pair.split("_", 1) unpacked into (from_code, to_code). -/
def splitOnceUnderscore (s : String) : Option (String × String) :=
  splitOnceAux [] s.data

/-- The loop state of run_update. -/
structure UpdSt where
  new_entries : List (String × Json)
  history_records : List Json
  errors : List String
  total_rates : Nat
deriving Repr

/-- The body of the inner per-pair loop of run_update: build the candidate
entry and the history record for one (pair, payload) item. -/
def processPayload (client : Client) (updated_at : String) (st : UpdSt)
    (pair : String) (payload : Json) : Except PyError UpdSt := do
  let payloadFields ←
    match payload with
    | .obj f => pure f
    | _ => throw .attributeError
  let rateJson : Json := (dget payloadFields "rate").getD .null
  let rate ←
    match pyFloat rateJson with
    | some q => pure q
    | none => throw .typeError
  let entry : Json := .obj
    [("rate", .num rate), ("updated_at", .str updated_at),
     ("source", .str client.sourceName)]
  let meta : Json := (dget payloadFields "meta").getD (.obj [])
  let metaFields ←
    match meta with
    | .obj f => pure f
    | _ => throw .attributeError
  let some fromTo := splitOnceUnderscore pair
    | throw (.valueError "not enough values to unpack")
  let tsJson : Json :=
    match dget metaFields "api_timestamp" with
    | some v => if truthy v then v else .str updated_at
    | none => .str updated_at
  let record : Json := .obj
    [("id", .str (pair ++ "_" ++ updated_at)),
     ("from_currency", .str fromTo.1),
     ("to_currency", .str fromTo.2),
     ("rate", .num rate),
     ("timestamp", tsJson),
     ("source", .str client.sourceName),
     ("meta", meta)]
  pure { st with new_entries := dset st.new_entries pair entry,
                 history_records := st.history_records ++ [record] }

/-- The source-selection set of run_update: None (all sources run) when
active_sources is None or empty, else the normalized names. -/
def selectSources (active_sources : Option (List String)) : Option (List String) :=
  match active_sources with
  | none => none
  | some l => if l.isEmpty then none else some (l.map _normalize_source)

/-- Whether run_update's per-client loop reaches a client's fetch (the
negation of its skip condition). -/
def isSelected (sources : Option (List String)) (c : Client) : Bool :=
  match sources with
  | some sel => _normalize_source c.sourceName ∈ sel
  | none => true

/-- The f-string appended to errors when a source's fetch raises. -/
def fetchFailMsg (source_name reason : String) : String :=
  "Failed to fetch from " ++ source_name ++ ": " ++ apiRequestErrorStr reason

/-- The body of the per-client loop of run_update: skip unselected sources,
collect ApiRequestError failures into errors, and fold the fetched pairs. -/
def processClient (sources : Option (List String)) (st : UpdSt)
    (client : Client) : Except PyError UpdSt :=
  let source_name := _normalize_source client.sourceName
  let skipped :=
    match sources with
    | some sel => decide (source_name ∉ sel)
    | none => false
  if skipped then pure st
  else
    match client.fetchResult with
    | .error reason =>
        pure { st with errors := st.errors ++ [fetchFailMsg source_name reason] }
    | .ok rates => do
        let st' ← rates.foldlM
          (fun s pv => processPayload client client.fetchedAt s pv.1 pv.2) st
        pure { st' with total_rates := st'.total_rates + rates.length }

/-- updater.py is_newer: the candidate wins only when its timestamp parses
and the stored one is missing/unparseable or strictly older. -/
def is_newer (new_entry old_entry : List (String × Json)) : Bool :=
  let new_ts := parse_iso_datetime ((dget new_entry "updated_at").getD .null)
  let old_ts := parse_iso_datetime ((dget old_entry "updated_at").getD .null)
  match new_ts with
  | none => false
  | some nt =>
      match old_ts with
      | none => true
      | some ot => nt > ot

/-- The merge loop of run_update: each candidate replaces the stored entry
when the pair is absent, the stored value is falsy, or is_newer accepts. -/
def merge_pairs (existing : List (String × Json))
    (news : List (String × Json)) : Except PyError (List (String × Json)) :=
  news.foldlM
    (fun ex pe => do
      let accept ←
        match dget ex pe.1 with
        | none => pure true
        | some ov =>
            if truthy ov then
              match ov with
              | .obj of =>
                  match pe.2 with
                  | .obj nf => pure (is_newer nf of)
                  | _ => throw .attributeError
              | _ => throw .attributeError
            else pure true
      pure (if accept then dset ex pe.1 pe.2 else ex))
    existing

/-- The summary dict returned by run_update. -/
structure RunResult where
  total_rates : Nat
  errors : List String
  last_refresh : String
deriving Repr, DecidableEq

/-- The ApiRequestError reason raised when no source produced data. -/
def noSourceDataMsg : String := "Не удалось получить данные ни от одного источника"

/-- RatesUpdater.run_update.  datetime.now for last_refresh is passed as
refreshedAt; the file system threads through explicitly, and an exception
outcome returns it unchanged exactly when no storage write happened. -/
def run_update (clients : List Client) (active_sources : Option (List String))
    (refreshedAt : String) (fs : FS) : Except PyError RunResult × FS :=
  let sources := selectSources active_sources
  match clients.foldlM (processClient sources) ⟨[], [], [], 0⟩ with
  | .error e => (.error e, fs)
  | .ok st =>
      if st.new_entries.isEmpty then
        (.error (.apiRequestError noSourceDataMsg), fs)
      else
        match read_rates fs with
        | .obj cf =>
            match (dget cf "pairs").getD (.obj []) with
            | .obj existing_pairs =>
                match merge_pairs existing_pairs st.new_entries with
                | .error e => (.error e, fs)
                | .ok merged =>
                    let payload : Json := .obj
                      [("pairs", .obj merged),
                       ("last_refresh", .str refreshedAt)]
                    let fs1 := write_rates fs payload
                    let fs2 :=
                      if st.history_records.isEmpty then fs1
                      else append_history fs1 st.history_records
                    (.ok ⟨st.total_rates, st.errors, refreshedAt⟩, fs2)
            | _ => (.error .attributeError, fs)
        | _ => (.error .attributeError, fs)

/-! ### Use cases (core/usecases.py, core/currencies.py, core/models.py) -/

/-- The codes registered in core/currencies.py CURRENCY_REGISTRY. -/
def CURRENCY_REGISTRY : List String := ["USD", "EUR", "RUB", "BTC", "ETH"]

/-- currencies.py get_currency, returning the normalized .code of the
registry entry, or CurrencyNotFoundError. -/
def get_currency (code : String) : Except PyError String :=
  let normalized := pyUpper (pyStrip code)
  if normalized = "" then .error (.currencyNotFoundError "")
  else if normalized ∈ CURRENCY_REGISTRY then .ok normalized
  else .error (.currencyNotFoundError normalized)

/-- The raw-pairs selection at the top of _build_usd_rates: the "pairs"
section when it is a dict, else the whole cache dict. -/
def rawPairs (rates_data : List (String × Json)) : List (String × Json) :=
  match dget rates_data "pairs" with
  | some (.obj o) => o
  | _ => rates_data

/-- The loop body of _build_usd_rates for one (pair, info) item. -/
def buildStep (rates : List (String × ℚ)) (pi : String × Json) :
    List (String × ℚ) :=
  if pi.1 = "last_refresh" ∨ pi.1 = "source" then rates
  else
    match pi.2 with
    | .obj infoFields =>
        if ¬ pi.1.data.contains '_' then rates
        else if ¬ dmem infoFields "rate" then rates
        else
          match pyFloat ((dget infoFields "rate").getD .null) with
          | none => rates
          | some rate_value =>
              match splitOnceUnderscore pi.1 with
              | none => rates
              | some ft =>
                  let from_code := pyUpper ft.1
                  let to_code := pyUpper ft.2
                  if to_code = "USD" then dset rates from_code rate_value
                  else if from_code = "USD" ∧ rate_value ≠ 0 then
                    dset rates to_code (1 / rate_value)
                  else rates
    | _ => rates

/-- usecases.py _build_usd_rates: fold the cache pairs in iteration order
into the pivot table, starting from USD -> 1. -/
def _build_usd_rates (rates_data : List (String × Json)) : List (String × ℚ) :=
  (rawPairs rates_data).foldl buildStep [("USD", 1)]

/-- usecases.py _load_exchange_rates over the raw cache value read from the
persisted store (db_manager.read "rates", passed in explicitly). -/
def _load_exchange_rates (rates_data : Json) : Except PyError (List (String × ℚ)) :=
  match rates_data with
  | .obj f =>
      let rates := _build_usd_rates f
      if rates.length ≤ 1 then
        .error (.valueError "В кеше отсутствуют данные о курсах")
      else .ok rates
  | _ => .error (.valueError "Некорректный формат файла rates.json")

/-- usecases.py _is_rates_fresh, with the current instant and the configured
TTL passed in explicitly. -/
def _is_rates_fresh (rates_data : List (String × Json)) (now : ℤ)
    (ttl_seconds : ℤ) : Bool :=
  match parse_iso_datetime ((dget rates_data "last_refresh").getD .null) with
  | none => false
  | some last_refresh => now - last_refresh ≤ ttl_seconds * 1000000

/-- The ApiRequestError reason of the refresh stub. -/
def refreshUnavailableMsg : String :=
  "Обновление курсов пока недоступно. Запустите Parser Service."

/-- usecases.py _refresh_rates_cache: the stub unconditionally raises
ApiRequestError. -/
def _refresh_rates_cache (_current_data : Json) : Except PyError Json :=
  .error (.apiRequestError refreshUnavailableMsg)

/-- The dict returned by get_exchange_rate; a missing "warning" key is
modelled as none. -/
structure RateResult where
  from_code : String
  to_code : String
  rate : ℚ
  updated_at : Json
  inverse_rate : Option ℚ
  stale : Bool
  warning : Option String
deriving Repr, DecidableEq

/-- usecases.py get_exchange_rate.  The raw cache value read from the
persisted store is passed in as rates_data_raw; now and ttl parameterize
_is_rates_fresh. -/
def get_exchange_rate (from_code to_code : String) (rates_data_raw : Json)
    (now : ℤ) (ttl : ℤ) : Except PyError RateResult := do
  let normalized_from ← get_currency from_code
  let normalized_to ← get_currency to_code
  if normalized_from = normalized_to then
    pure ⟨normalized_from, normalized_to, 1, .null, some 1, false, none⟩
  else do
    let rates_fields ←
      match rates_data_raw with
      | .obj f => pure f
      | _ => throw (.valueError "Некорректный формат файла rates.json")
    let staleWarnFields ←
      if _is_rates_fresh rates_fields now ttl then
        pure (false, (none : Option String), rates_fields)
      else
        match _refresh_rates_cache (.obj rates_fields) with
        | .ok refreshed =>
            match refreshed with
            | .obj f => pure (false, none, f)
            | _ => throw .attributeError
        | .error e =>
            match e with
            | .apiRequestError reason =>
                if rates_fields.isEmpty then throw e
                else pure (true, some (apiRequestErrorStr reason), rates_fields)
            | _ => throw e
    let (stale, warning, rates_fields') := staleWarnFields
    let usd_rates := _build_usd_rates rates_fields'
    match dget usd_rates normalized_from with
    | none => throw (.valueError ("Не удалось получить курс для " ++ normalized_from))
    | some from_to_usd =>
        match dget usd_rates normalized_to with
        | none => throw (.valueError ("Не удалось получить курс для " ++ normalized_to))
        | some to_to_usd =>
            if to_to_usd = 0 then
              throw (.valueError ("Некорректный курс для валюты " ++ normalized_to))
            else
              let rate_value := from_to_usd / to_to_usd
              pure ⟨normalized_from, normalized_to, rate_value,
                    (dget rates_fields' "last_refresh").getD .null,
                    if rate_value = 0 then none else some (1 / rate_value),
                    stale, warning⟩

/-- usecases.py _calc_base_conversion: returns
(rate_to_usd, rate_to_base, estimated_value_base, normalized_base).
The elif base_rate_usd test is float truthiness, so a zero base rate yields
no rate_to_base. -/
def _calc_base_conversion (currency_code base_currency : String)
    (exchange_rates : List (String × ℚ)) (amount : ℚ) :
    Option ℚ × Option ℚ × Option ℚ × String :=
  let normalized_base := pyUpper base_currency
  let rate_to_usd := dget exchange_rates currency_code
  let base_rate_usd := dget exchange_rates normalized_base
  let rate_to_base : Option ℚ :=
    match rate_to_usd with
    | none => none
    | some r =>
        if normalized_base = "USD" then some r
        else
          match base_rate_usd with
          | some b => if b ≠ 0 then some (r / b) else none
          | none => none
  (rate_to_usd, rate_to_base, rate_to_base.map (fun rb => amount * rb),
   normalized_base)

/-- The body of the wallet loop of Portfolio.get_total_value. -/
def totalStep (exchange_rates : List (String × ℚ)) (acc : ℚ)
    (w : String × ℚ) : Except PyError ℚ :=
  match dget exchange_rates w.1 with
  | none => throw (.valueError ("Нет курса для валюты " ++ w.1))
  | some r => pure (acc + w.2 * r)

/-- models.py Portfolio.get_total_value over the wallets in iteration order
(each wallet is its normalized currency code with its balance).  Dividing by
a zero base rate is the uncaught ZeroDivisionError. -/
def get_total_value (wallets : List (String × ℚ)) (base_currency : String)
    (exchange_rates : List (String × ℚ)) : Except PyError ℚ := do
  if exchange_rates.isEmpty then
    throw (.valueError "Не переданы курсы для оценки портфеля")
  else if pyStrip base_currency = "" then
    throw (.valueError "Код валюты должен быть непустой строкой")
  else
    let normalized_base := pyUpper (pyStrip base_currency)
    if ¬ dmem exchange_rates normalized_base then
      throw (.valueError ("Нет курса для базовой валюты " ++ normalized_base))
    else do
      let total_in_usd ← wallets.foldlM (totalStep exchange_rates) (0 : ℚ)
      if normalized_base = "USD" then pure total_in_usd
      else
        match dget exchange_rates normalized_base with
        | some b => if b = 0 then throw .zeroDivisionError else pure (total_in_usd / b)
        | none => throw .zeroDivisionError

/-- One entry of the per-wallet report of show_portfolio. -/
structure WalletReport where
  currency_code : String
  balance : ℚ
  value_in_base : ℚ
deriving Repr, DecidableEq

/-- The dict returned by show_portfolio. -/
structure PortfolioReport where
  wallets : List WalletReport
  base_currency : String
  total_in_base : ℚ
deriving Repr, DecidableEq

/-- The base-currency normalization at the top of show_portfolio:
(base_currency or DEFAULT_BASE_CURRENCY).strip().upper(). -/
def normBaseOf (base_currency : Option String) (default_base : String) : String :=
  (match base_currency with
   | some s => if s = "" then default_base else s
   | none => default_base) |> pyStrip |> pyUpper

/-- The body of the per-wallet report loop of show_portfolio. -/
def walletStep (normalized_base : String)
    (exchange_rates : List (String × ℚ)) (acc : List WalletReport)
    (w : String × ℚ) : Except PyError (List WalletReport) := do
  let cbc := _calc_base_conversion w.1 normalized_base exchange_rates w.2
  match cbc.1 with
  | none => throw (.valueError ("Нет курса для валюты \u0027" ++ w.1 ++ "\u0027"))
  | some _ => pure (acc ++ [WalletReport.mk w.1 w.2 ((cbc.2.2.1).getD 0)])

/-- usecases.py show_portfolio over an explicit portfolio (wallet code and
balance in iteration order), requested base currency (None when omitted),
the configured DEFAULT_BASE_CURRENCY, and the raw cache value. -/
def show_portfolio (wallets : List (String × ℚ))
    (base_currency : Option String) (default_base : String)
    (rates_data : Json) : Except PyError PortfolioReport := do
  let normalized_base := normBaseOf base_currency default_base
  let exchange_rates ← _load_exchange_rates rates_data
  if ¬ dmem exchange_rates normalized_base then
    throw (.valueError ("Неизвестная базовая валюта \u0027" ++ normalized_base ++ "\u0027"))
  else do
    let wallets_info ← wallets.foldlM
      (walletStep normalized_base exchange_rates) ([] : List WalletReport)
    let total_in_base ← get_total_value wallets normalized_base exchange_rates
    pure ⟨wallets_info, normalized_base, total_in_base⟩

/-! ### Helper notions for the theorems -/

/-- The assignment a single cache item contributes to the pivot table in
_build_usd_rates: (FROM.upper, rate) when TO.upper is USD, (TO.upper, 1/rate)
when FROM.upper is USD and the rate is nonzero, nothing otherwise or when the
item is skipped. -/
def pairContribution (pi : String × Json) : Option (String × ℚ) :=
  if pi.1 = "last_refresh" ∨ pi.1 = "source" then none
  else
    match pi.2 with
    | .obj infoFields =>
        if ¬ pi.1.data.contains '_' then none
        else if ¬ dmem infoFields "rate" then none
        else
          match pyFloat ((dget infoFields "rate").getD .null) with
          | none => none
          | some rate_value =>
              match splitOnceUnderscore pi.1 with
              | none => none
              | some ft =>
                  if pyUpper ft.2 = "USD" then some (pyUpper ft.1, rate_value)
                  else if pyUpper ft.1 = "USD" ∧ rate_value ≠ 0 then
                    some (pyUpper ft.2, 1 / rate_value)
                  else none
    | _ => none

/-- The last contribution to key k among the cache items, folded from an
initial accumulator. -/
def lastContribFrom (acc : Option ℚ) (l : List (String × Json)) (k : String) :
    Option ℚ :=
  l.foldl
    (fun a pi =>
      match pairContribution pi with
      | some kv => if kv.1 = k then some kv.2 else a
      | none => a)
    acc

/-- The last contribution to key k among the cache items, if any. -/
def lastContribTo (l : List (String × Json)) (k : String) : Option ℚ :=
  lastContribFrom none l k

theorem buildStep_eq_contrib (rates : List (String × ℚ)) (pi : String × Json) :
    buildStep rates pi =
      match pairContribution pi with
      | none => rates
      | some kv => dset rates kv.1 kv.2 := by
  unfold buildStep pairContribution
  rcases pi with ⟨p, info⟩
  dsimp only
  split
  · rfl
  · cases info <;> dsimp only
    case obj infoFields =>
      split
      · rfl
      · split
        · rfl
        · split
          · rfl
          · split
            · rfl
            · split
              · rfl
              · split
                · rfl
                · rfl

theorem lastContribFrom_cons (acc : Option ℚ) (pi : String × Json)
    (rest : List (String × Json)) (k : String) :
    lastContribFrom acc (pi :: rest) k =
      lastContribFrom
        (match pairContribution pi with
         | some kv => if kv.1 = k then some kv.2 else acc
         | none => acc) rest k := rfl

theorem lastContribFrom_acc (l : List (String × Json)) (k : String)
    (acc : Option ℚ) :
    lastContribFrom acc l k =
      match lastContribFrom none l k with
      | some v => some v
      | none => acc := by
  induction l generalizing acc with
  | nil => simp [lastContribFrom]
  | cons pi rest ih =>
      rw [lastContribFrom_cons, lastContribFrom_cons none]
      rcases hpc : pairContribution pi with _ | kv
      · exact ih acc
      · dsimp only
        by_cases hk : kv.1 = k
        · rw [if_pos hk, if_pos hk, ih (some kv.2)]
          rcases lastContribFrom none rest k with _ | v <;> rfl
        · rw [if_neg hk, if_neg hk]
          exact ih acc

theorem dget_foldl_buildStep (l : List (String × Json))
    (init : List (String × ℚ)) (k : String) :
    dget (l.foldl buildStep init) k =
      match lastContribTo l k with
      | some v => some v
      | none => dget init k := by
  induction l generalizing init with
  | nil => simp [lastContribTo, lastContribFrom]
  | cons pi rest ih =>
      rcases hpc : pairContribution pi with _ | kv
      · have h1 : buildStep init pi = init := by
          rw [buildStep_eq_contrib, hpc]
        have h2 : lastContribTo (pi :: rest) k = lastContribTo rest k := by
          rw [lastContribTo, lastContribFrom_cons, hpc]
          rfl
        rw [List.foldl_cons, h1, h2, ih]
      · by_cases hk : kv.1 = k
        · have h2 : lastContribTo (pi :: rest) k =
              match lastContribTo rest k with
              | some v => some v
              | none => some kv.2 := by
            rw [lastContribTo, lastContribFrom_cons, hpc]
            dsimp only
            rw [if_pos hk]
            exact lastContribFrom_acc rest k (some kv.2)
          have h1 : buildStep init pi = dset init kv.1 kv.2 := by
            rw [buildStep_eq_contrib, hpc]
          rw [List.foldl_cons, h1, ih (dset init kv.1 kv.2), h2]
          rcases lastContribTo rest k with _ | v
          · dsimp only
            subst hk
            exact dget_dset_self init kv.1 kv.2
          · rfl
        · have h2 : lastContribTo (pi :: rest) k = lastContribTo rest k := by
            rw [lastContribTo, lastContribFrom_cons, hpc]
            dsimp only
            rw [if_neg hk]
            rfl
          have h1 : buildStep init pi = dset init kv.1 kv.2 := by
            rw [buildStep_eq_contrib, hpc]
          rw [List.foldl_cons, h1, ih (dset init kv.1 kv.2), h2]
          rcases lastContribTo rest k with _ | v
          · dsimp only
            exact dget_dset_other init kv.1 k kv.2 hk
          · rfl

/-! ### Claims -/

/-- C6: for every valid cache value c, write_rates followed by read_rates
returns c unchanged (the persisted round-trip is the identity). -/
theorem C6_write_read_roundtrip (fs : FS) (c : Json)
    (_hv : validCache c = true) :
    read_rates (write_rates fs c) = c := rfl

/-- Witness for C6 at the empty cache value and an empty file system. -/
theorem C6_write_read_roundtrip_witness :
    validCache emptyRatesJson = true ∧
      read_rates (write_rates ⟨none, none, none, none⟩ emptyRatesJson)
        = emptyRatesJson :=
  ⟨by decide,
   C6_write_read_roundtrip ⟨none, none, none, none⟩ emptyRatesJson (by decide)⟩

/-- C10: append_history writes the concatenation of the prior history list
and the new records; the prior list is the parsed file exactly when it
parses to a JSON list, and is empty when the file is absent, unparseable,
or parses to a non-list value. -/
theorem C10_append_history_cases (fs : FS) (records : List Json) :
    (append_history fs records).history
        = some (.json (.arr (read_history_file fs ++ records)))
      ∧ (∀ xs, fs.history = some (.json (.arr xs)) → read_history_file fs = xs)
      ∧ (fs.history = none → read_history_file fs = [])
      ∧ (∀ raw, fs.history = some (.corrupt raw) → read_history_file fs = [])
      ∧ (∀ v, fs.history = some (.json v) → (∀ xs, v ≠ .arr xs) →
          read_history_file fs = []) := by
  refine ⟨rfl, ?_, ?_, ?_, ?_⟩
  · intro xs h
    simp [read_history_file, h]
  · intro h
    simp [read_history_file, h]
  · intro raw h
    simp [read_history_file, h]
  · intro v h hne
    cases v with
    | arr xs => exact absurd rfl (hne xs)
    | null => simp [read_history_file, h]
    | bool b => simp [read_history_file, h]
    | num q => simp [read_history_file, h]
    | str s => simp [read_history_file, h]
    | obj fields => simp [read_history_file, h]

/-- Witness for C10 on a concrete one-record history file. -/
theorem C10_append_history_cases_witness :
    (append_history ⟨none, none, some (.json (.arr [Json.num 1])), none⟩
        [Json.num 2]).history
      = some (.json (.arr [Json.num 1, Json.num 2]))
    ∧ read_history_file ⟨none, none, some (.json (.arr [Json.num 1])), none⟩
      = [Json.num 1] := by
  have h := C10_append_history_cases
    ⟨none, none, some (.json (.arr [Json.num 1])), none⟩ [Json.num 2]
  exact ⟨h.1.trans (by rfl), h.2.1 [Json.num 1] rfl⟩

/-- C9: when both requested codes normalize to the same registered currency,
get_exchange_rate returns rate exactly 1 with stale = false, independently of
the cache value, the clock and the TTL (no cache read, no table lookup). -/
theorem C9_same_currency_identity (code₁ code₂ c : String) (rates_data : Json)
    (now : ℤ) (ttl : ℤ) (h₁ : get_currency code₁ = .ok c)
    (h₂ : get_currency code₂ = .ok c) :
    get_exchange_rate code₁ code₂ rates_data now ttl
      = .ok ⟨c, c, 1, .null, some 1, false, none⟩ := by
  unfold get_exchange_rate
  rw [h₁, h₂]
  show (if c = c then _ else _) = _
  rw [if_pos rfl]
  rfl

/-- Witness for C9: converting usd to " USD " over a junk cache. -/
theorem C9_same_currency_identity_witness :
    get_currency "usd" = .ok "USD" ∧
      get_exchange_rate "usd" " USD " (.obj [("x", .null)]) 5 300
        = .ok ⟨"USD", "USD", 1, .null, some 1, false, none⟩ :=
  ⟨rfl,
   C9_same_currency_identity "usd" " USD " "USD" (.obj [("x", .null)]) 5 300
     rfl rfl⟩

/-- C4 counterexample: with cache pairs EUR_USD (rate 2), USD_EUR (rate 4)
and USD_USD (rate 3), the claim demands EUR -> 2 (from the EUR_USD pair) and
USD -> 1.0, but the built table maps EUR to 1/4 and USD to 3: later pairs
overwrite earlier assignments, and a pair may overwrite the USD seed. -/
theorem C4_counterexample :
    dget (_build_usd_rates
        [("pairs", .obj
          [("EUR_USD", .obj [("rate", .num 2)]),
           ("USD_EUR", .obj [("rate", .num 4)]),
           ("USD_USD", .obj [("rate", .num 3)])])]) "EUR" = some (1 / 4)
    ∧ dget (_build_usd_rates
        [("pairs", .obj
          [("EUR_USD", .obj [("rate", .num 2)]),
           ("USD_EUR", .obj [("rate", .num 4)]),
           ("USD_USD", .obj [("rate", .num 3)])])]) "USD" = some 3 :=
  ⟨rfl, rfl⟩

/-- C4 amended: the built table maps each key to the LAST assignment made to
it by a cache pair in iteration order (TO == USD gives FROM.upper -> rate,
FROM == USD with a nonzero rate gives TO.upper -> 1/rate, other pairs assign
nothing), and maps USD to 1.0 exactly when no pair assigns to USD; keys never
assigned and different from USD are absent. -/
theorem C4_amended (rates_data : List (String × Json)) (k : String) :
    dget (_build_usd_rates rates_data) k =
      match lastContribTo (rawPairs rates_data) k with
      | some v => some v
      | none => if "USD" = k then some (1 : ℚ) else none := by
  unfold _build_usd_rates
  rw [dget_foldl_buildStep]
  rcases lastContribTo (rawPairs rates_data) k with _ | v <;> rfl

/-! ### Lemmas about the per-client and per-payload loops -/

theorem dset_ne_nil {α : Type} (l : List (String × α)) (k : String) (v : α) :
    dset l k v ≠ [] := by
  cases l with
  | nil => simp [dset]
  | cons hd tl =>
      obtain ⟨k', v'⟩ := hd
      by_cases h : k' = k <;> simp [dset, h]

theorem dget_mem {α : Type} (l : List (String × α)) (k : String) (v : α)
    (h : dget l k = some v) : (k, v) ∈ l := by
  induction l with
  | nil => simp [dget] at h
  | cons hd tl ih =>
      obtain ⟨k', v'⟩ := hd
      by_cases hk : k' = k
      · subst hk
        rw [dget, if_pos rfl] at h
        cases h
        exact List.mem_cons_self _ _
      · rw [dget, if_neg hk] at h
        exact List.mem_cons_of_mem _ (ih h)

theorem mem_dset {α : Type} (l : List (String × α)) (k : String) (v : α)
    (kv : String × α) (h : kv ∈ dset l k v) : kv ∈ l ∨ kv = (k, v) := by
  induction l with
  | nil => simp [dset] at h; right; exact h
  | cons hd tl ih =>
      obtain ⟨k', v'⟩ := hd
      by_cases hk : k' = k
      · rw [dset, if_pos hk] at h
        rcases List.mem_cons.mp h with h1 | h1
        · right; rw [h1, hk]
        · left; exact List.mem_cons_of_mem _ h1
      · rw [dset, if_neg hk] at h
        rcases List.mem_cons.mp h with h1 | h1
        · left; rw [h1]; exact List.mem_cons_self _ _
        · rcases ih h1 with h2 | h2
          · left; exact List.mem_cons_of_mem _ h2
          · right; exact h2

theorem except_bind_ok {ε α β : Type} (a : α) (f : α → Except ε β) :
    (Except.ok a >>= f) = f a := rfl

theorem except_pure_bind {ε α β : Type} (a : α) (f : α → Except ε β) :
    ((pure a : Except ε α) >>= f) = f a := rfl

theorem isEmpty_eq_false_of_ne_nil {α : Type} {l : List α} (h : l ≠ []) :
    l.isEmpty = false := by
  cases l with
  | nil => exact absurd rfl h
  | cons x xs => rfl

theorem processClient_not_selected (sources : Option (List String))
    (st : UpdSt) (c : Client) (h : isSelected sources c = false) :
    processClient sources st c = .ok st := by
  unfold processClient
  cases sources with
  | none => simp [isSelected] at h
  | some sel =>
      have hmem : _normalize_source c.sourceName ∉ sel := by
        simpa [isSelected] using h
      rw [if_pos (by simpa using hmem)]
      rfl

theorem processClient_error (sources : Option (List String)) (st : UpdSt)
    (c : Client) (reason : String) (h : isSelected sources c = true)
    (hr : c.fetchResult = .error reason) :
    processClient sources st c
      = .ok { st with errors := st.errors
          ++ [fetchFailMsg (_normalize_source c.sourceName) reason] } := by
  unfold processClient
  cases sources with
  | none => simp [hr]; rfl
  | some sel =>
      simp only [isSelected] at h
      simp [h, hr]
      rfl

theorem processClient_fetch (sources : Option (List String)) (st st' : UpdSt)
    (c : Client) (rates : List (String × Json))
    (h : isSelected sources c = true) (hr : c.fetchResult = .ok rates)
    (hfold : rates.foldlM
        (fun s pv => processPayload c c.fetchedAt s pv.1 pv.2) st = .ok st') :
    processClient sources st c
      = .ok { st' with total_rates := st'.total_rates + rates.length } := by
  cases sources with
  | none =>
      unfold processClient
      dsimp only
      simp only [Bool.false_eq_true, if_false]
      rw [hr]
      dsimp only
      rw [hfold]
      rfl
  | some sel =>
      have hmem : _normalize_source c.sourceName ∈ sel := by
        simpa [isSelected] using h
      unfold processClient
      dsimp only
      rw [if_neg (by simp [hmem])]
      rw [hr]
      dsimp only
      rw [hfold]
      rfl

/-- A payload is well formed when its dict shape lets processPayload run
without raising: a dict payload, a float-convertible rate, a dict meta and
an underscore in the pair name (the canonical RateSource contract). -/
def wellFormedPayload (p : String × Json) : Bool :=
  match p.2 with
  | .obj pf =>
      (pyFloat ((dget pf "rate").getD .null)).isSome
      && (match (dget pf "meta").getD (.obj []) with
          | .obj _ => true
          | _ => false)
      && (splitOnceUnderscore p.1).isSome
  | _ => false

theorem processPayload_ok (client : Client) (ua : String) (st : UpdSt)
    (p : String × Json) (hwf : wellFormedPayload p = true) :
    ∃ entryFields histRecord,
      processPayload client ua st p.1 p.2
        = .ok { st with
            new_entries := dset st.new_entries p.1 (.obj entryFields),
            history_records := st.history_records ++ [histRecord] } := by
  rcases p with ⟨pair, payload⟩
  cases payload with
  | obj pf =>
      unfold wellFormedPayload at hwf
      simp only [Bool.and_eq_true, Option.isSome_iff_exists] at hwf
      obtain ⟨⟨⟨q, hq⟩, hmeta⟩, hsplit⟩ := hwf
      rcases hsv : splitOnceUnderscore pair with _ | ft
      · rw [hsv] at hsplit; simp at hsplit
      rcases hmv : (dget pf "meta").getD (.obj []) with _ | b2 | q2 | s2 | it2 | mf
      · rw [hmv] at hmeta; simp at hmeta
      · rw [hmv] at hmeta; simp at hmeta
      · rw [hmv] at hmeta; simp at hmeta
      · rw [hmv] at hmeta; simp at hmeta
      · rw [hmv] at hmeta; simp at hmeta
      refine ⟨[("rate", .num q), ("updated_at", .str ua),
          ("source", .str client.sourceName)],
        .obj [("id", .str (pair ++ "_" ++ ua)), ("from_currency", .str ft.1),
          ("to_currency", .str ft.2), ("rate", .num q),
          ("timestamp", match dget mf "api_timestamp" with
            | some v => if truthy v then v else .str ua
            | none => .str ua),
          ("source", .str client.sourceName), ("meta", .obj mf)], ?_⟩
      unfold processPayload
      dsimp only
      try simp only [except_pure_bind]
      rw [hq]
      dsimp only
      try simp only [except_pure_bind]
      rw [hmv]
      dsimp only
      try simp only [except_pure_bind]
      rw [hsv]
      rfl
  | null => simp [wellFormedPayload] at hwf
  | bool b => simp [wellFormedPayload] at hwf
  | num q => simp [wellFormedPayload] at hwf
  | str a => simp [wellFormedPayload] at hwf
  | arr items => simp [wellFormedPayload] at hwf

theorem foldPayloads_ok (client : Client) (ua : String)
    (rates : List (String × Json)) (st : UpdSt)
    (hwf : ∀ p ∈ rates, wellFormedPayload p = true) :
    ∃ st', rates.foldlM
        (fun s pv => processPayload client ua s pv.1 pv.2) st = .ok st'
      ∧ st'.errors = st.errors
      ∧ st'.total_rates = st.total_rates
      ∧ (st'.new_entries = [] → st.new_entries = [] ∧ rates = [])
      ∧ (∀ kv ∈ st'.new_entries,
          kv ∈ st.new_entries ∨ ∃ f, kv.2 = .obj f) := by
  induction rates generalizing st with
  | nil =>
      exact ⟨st, rfl, rfl, rfl, fun h => ⟨h, rfl⟩, fun kv hkv => Or.inl hkv⟩
  | cons p rest ih =>
      obtain ⟨ef, hrec, hstep⟩ :=
        processPayload_ok client ua st p (hwf p (List.mem_cons_self _ _))
      obtain ⟨st', hfold, herr, htot, hne2, hmem⟩ :=
        ih { st with
            new_entries := dset st.new_entries p.1 (.obj ef),
            history_records := st.history_records ++ [hrec] }
          (fun q hq => hwf q (List.mem_cons_of_mem _ hq))
      refine ⟨st', ?_, herr, htot, ?_, ?_⟩
      · rw [List.foldlM_cons, hstep, except_bind_ok]
        exact hfold
      · intro h
        exact absurd ((hne2 h).1) (dset_ne_nil _ _ _)
      · intro kv hkv
        rcases hmem kv hkv with h | h
        · rcases mem_dset _ _ _ _ h with h1 | h1
          · exact Or.inl h1
          · exact Or.inr ⟨ef, by rw [h1]⟩
        · exact Or.inr h

theorem merge_pairs_ok (news existing : List (String × Json))
    (hex : ∀ kv ∈ existing, ∃ f, (kv : String × Json).2 = .obj f)
    (hnews : ∀ kv ∈ news, ∃ f, (kv : String × Json).2 = .obj f) :
    ∃ merged, merge_pairs existing news = .ok merged := by
  induction news generalizing existing with
  | nil => exact ⟨existing, rfl⟩
  | cons pe rest ih =>
      have hstep : ∃ ex', (do
          let accept ←
            match dget existing pe.1 with
            | none => pure true
            | some ov =>
                if truthy ov then
                  match ov with
                  | .obj of =>
                      match pe.2 with
                      | .obj nf => pure (is_newer nf of)
                      | _ => throw .attributeError
                  | _ => throw .attributeError
                else pure true
          pure (if accept then dset existing pe.1 pe.2 else existing)
          : Except PyError (List (String × Json)))
          = .ok ex' ∧ (∀ kv ∈ ex', ∃ f, (kv : String × Json).2 = .obj f) := by
        have hins : ∀ kv ∈ dset existing pe.1 pe.2,
            ∃ f, (kv : String × Json).2 = .obj f := by
          intro kv hkv
          rcases mem_dset _ _ _ _ hkv with h | h
          · exact hex kv h
          · obtain ⟨f, hf⟩ := hnews pe (List.mem_cons_self _ _)
            exact ⟨f, by rw [h]; exact hf⟩
        rcases hdg : dget existing pe.1 with _ | ov
        · exact ⟨_, rfl, by intro kv hkv; exact hins kv hkv⟩
        · obtain ⟨of, hof⟩ := hex (pe.1, ov) (dget_mem _ _ _ hdg)
          by_cases ht : truthy ov = true
          · obtain ⟨nf, hnf⟩ := hnews pe (List.mem_cons_self _ _)
            subst hof
            rw [show (pe.2 : Json) = .obj nf from hnf]
            refine ⟨if is_newer nf of then dset existing pe.1 (.obj nf)
                else existing, ?_, ?_⟩
            · simp only [if_pos ht, except_pure_bind]
              try rfl
            · intro kv hkv
              split at hkv
              · exact hins kv (by rw [← hnf] at hkv; exact hkv)
              · exact hex kv hkv
          · subst hof
            refine ⟨dset existing pe.1 pe.2, ?_, ?_⟩
            · simp only [if_neg ht, except_pure_bind]
              try rfl
            · intro kv hkv
              exact hins kv hkv
      obtain ⟨ex', hex', hall⟩ := hstep
      obtain ⟨merged, hm⟩ :=
        ih ex' hall (fun kv hkv => hnews kv (List.mem_cons_of_mem _ hkv))
      refine ⟨merged, ?_⟩
      unfold merge_pairs at hm ⊢
      rw [List.foldlM_cons]
      rw [hex']
      exact hm

/-- C1: if every source selected for the cycle fails its fetch with
ApiRequestError, run_update raises the aggregation-failure ApiRequestError
and the file system (rates cache and history) is returned unchanged. -/
theorem C1_total_failure_preserves_cache (clients : List Client)
    (active_sources : Option (List String)) (refreshedAt : String) (fs : FS)
    (hfail : ∀ c ∈ clients, isSelected (selectSources active_sources) c = true →
      ∃ reason, c.fetchResult = .error reason) :
    run_update clients active_sources refreshedAt fs
      = (.error (.apiRequestError noSourceDataMsg), fs) := by
  have hfold : ∀ (cl : List Client) (st : UpdSt),
      (∀ c ∈ cl, isSelected (selectSources active_sources) c = true →
        ∃ reason, c.fetchResult = .error reason) →
      ∃ st', cl.foldlM (processClient (selectSources active_sources)) st = .ok st'
        ∧ st'.new_entries = st.new_entries := by
    intro cl
    induction cl with
    | nil => exact fun st _ => ⟨st, rfl, rfl⟩
    | cons c rest ih =>
        intro st hall
        rcases hsel : isSelected (selectSources active_sources) c with _ | _
        · obtain ⟨st', h1, h2⟩ :=
            ih st (fun c' hc' => hall c' (List.mem_cons_of_mem _ hc'))
          refine ⟨st', ?_, h2⟩
          rw [List.foldlM_cons,
            processClient_not_selected _ _ _ hsel, except_bind_ok]
          exact h1
        · obtain ⟨reason, hr⟩ := hall c (List.mem_cons_self _ _) hsel
          obtain ⟨st', h1, h2⟩ :=
            ih { st with errors := st.errors
                ++ [fetchFailMsg (_normalize_source c.sourceName) reason] }
              (fun c' hc' => hall c' (List.mem_cons_of_mem _ hc'))
          refine ⟨st', ?_, h2⟩
          rw [List.foldlM_cons,
            processClient_error _ _ _ _ hsel hr, except_bind_ok]
          exact h1
  obtain ⟨st', h1, h2⟩ := hfold clients ⟨[], [], [], 0⟩ hfail
  unfold run_update
  dsimp only
  rw [h1]
  simp only [h2, List.isEmpty_nil, if_true]

/-- Witness for C1: one selected client whose fetch fails. -/
theorem C1_total_failure_preserves_cache_witness :
    run_update [⟨"api1", .error "boom", "t"⟩] none "r" ⟨none, none, none, none⟩
      = (.error (.apiRequestError noSourceDataMsg), ⟨none, none, none, none⟩) :=
  C1_total_failure_preserves_cache [⟨"api1", .error "boom", "t"⟩] none "r"
    ⟨none, none, none, none⟩
    (by
      intro c hc _
      rw [List.mem_singleton] at hc
      subst hc
      exact ⟨"boom", rfl⟩)

/-- C5: with two sources of which exactly one fails, run_update succeeds,
errors has exactly the failing source's message, and total_rates is the
number of pairs returned by the surviving source (for a validly shaped
persisted cache and contract-shaped payloads). -/
theorem C5_partial_failure_tolerance (a b : Client) (refreshedAt : String)
    (fs : FS) (reason : String) (rates : List (String × Json))
    (hfs : validCache (read_rates fs) = true) (hne : rates ≠ [])
    (hwf : ∀ p ∈ rates, wellFormedPayload p = true) :
    (a.fetchResult = .error reason → b.fetchResult = .ok rates →
      ∃ fs', run_update [a, b] none refreshedAt fs
        = (.ok ⟨rates.length,
            [fetchFailMsg (_normalize_source a.sourceName) reason],
            refreshedAt⟩, fs'))
    ∧ (a.fetchResult = .ok rates → b.fetchResult = .error reason →
      ∃ fs', run_update [a, b] none refreshedAt fs
        = (.ok ⟨rates.length,
            [fetchFailMsg (_normalize_source b.sourceName) reason],
            refreshedAt⟩, fs')) := by
  have hreadObj : ∃ cf, read_rates fs = .obj cf := by
    rcases hr : read_rates fs with _ | _ | _ | _ | _ | cf
    · rw [hr] at hfs; simp [validCache] at hfs
    · rw [hr] at hfs; simp [validCache] at hfs
    · rw [hr] at hfs; simp [validCache] at hfs
    · rw [hr] at hfs; simp [validCache] at hfs
    · rw [hr] at hfs; simp [validCache] at hfs
    · exact ⟨cf, rfl⟩
  obtain ⟨cf, hcf⟩ := hreadObj
  have hpairs : ∃ eps, dget cf "pairs" = some (.obj eps)
      ∧ ∀ kv ∈ eps, ∃ f, (kv : String × Json).2 = .obj f := by
    rw [hcf] at hfs
    simp only [validCache, Bool.and_eq_true] at hfs
    rcases hdp : dget cf "pairs" with _ | pv
    · rw [hdp] at hfs
      simp at hfs
    · rcases pv with _ | _ | _ | _ | _ | eps
      all_goals rw [hdp] at hfs
      · simp at hfs
      · simp at hfs
      · simp at hfs
      · simp at hfs
      · simp at hfs
      · refine ⟨eps, rfl, ?_⟩
        intro kv hkv
        have hall := hfs.1
        rw [List.all_eq_true] at hall
        have h2 := hall kv hkv
        rcases kv with ⟨k, v⟩
        rcases v with _ | _ | _ | _ | _ | ef
        · simp at h2
        · simp at h2
        · simp at h2
        · simp at h2
        · simp at h2
        · exact ⟨ef, rfl⟩
  obtain ⟨eps, heps, hepsObj⟩ := hpairs
  constructor
  · intro ha hb
    obtain ⟨st', hfold, herr, htot, hnemp, hmem⟩ :=
      foldPayloads_ok b b.fetchedAt rates
        ⟨[], [], [fetchFailMsg (_normalize_source a.sourceName) reason], 0⟩ hwf
    have hstep1 : processClient (selectSources none) ⟨[], [], [], 0⟩ a
        = .ok ⟨[], [], [fetchFailMsg (_normalize_source a.sourceName) reason], 0⟩ :=
      processClient_error (selectSources none) ⟨[], [], [], 0⟩ a reason rfl ha
    have hstep2 : processClient (selectSources none)
        ⟨[], [], [fetchFailMsg (_normalize_source a.sourceName) reason], 0⟩ b
        = .ok { st' with total_rates := st'.total_rates + rates.length } :=
      processClient_fetch (selectSources none) _ st' b rates rfl hb hfold
    have hfoldall : List.foldlM (processClient (selectSources none))
        (⟨[], [], [], 0⟩ : UpdSt) [a, b]
        = .ok { st' with total_rates := st'.total_rates + rates.length } := by
      rw [List.foldlM_cons, hstep1, except_bind_ok, List.foldlM_cons, hstep2,
        except_bind_ok, List.foldlM_nil]
      rfl
    have hne' : st'.new_entries ≠ [] := fun h => hne ((hnemp h).2)
    have hobj : ∀ kv ∈ st'.new_entries, ∃ f, (kv : String × Json).2 = .obj f := by
      intro kv hkv
      rcases hmem kv hkv with h | h
      · simp at h
      · exact h
    obtain ⟨merged, hm⟩ := merge_pairs_ok st'.new_entries eps hepsObj hobj
    refine ⟨if st'.history_records.isEmpty then
        write_rates fs
          (.obj [("pairs", .obj merged), ("last_refresh", .str refreshedAt)])
      else append_history
        (write_rates fs
          (.obj [("pairs", .obj merged), ("last_refresh", .str refreshedAt)]))
        st'.history_records, ?_⟩
    unfold run_update
    try dsimp only
    rw [hfoldall]
    try dsimp only
    rw [isEmpty_eq_false_of_ne_nil hne']
    try dsimp only [Bool.false_eq_true, if_false]
    rw [hcf]
    try dsimp only
    rw [heps]
    try dsimp only [Option.getD]
    rw [hm]
    try dsimp only
    rw [herr, htot]
    rw [Nat.zero_add]
    rfl
  · intro ha hb
    obtain ⟨st', hfold, herr, htot, hnemp, hmem⟩ :=
      foldPayloads_ok a a.fetchedAt rates ⟨[], [], [], 0⟩ hwf
    have hstep1 : processClient (selectSources none) ⟨[], [], [], 0⟩ a
        = .ok { st' with total_rates := st'.total_rates + rates.length } :=
      processClient_fetch (selectSources none) _ st' a rates rfl ha hfold
    have hstep2 : processClient (selectSources none)
        { st' with total_rates := st'.total_rates + rates.length } b
        = .ok { st' with
            total_rates := st'.total_rates + rates.length,
            errors := st'.errors
              ++ [fetchFailMsg (_normalize_source b.sourceName) reason] } :=
      processClient_error (selectSources none) _ b reason rfl hb
    have hfoldall : List.foldlM (processClient (selectSources none))
        (⟨[], [], [], 0⟩ : UpdSt) [a, b]
        = .ok { st' with
            total_rates := st'.total_rates + rates.length,
            errors := st'.errors
              ++ [fetchFailMsg (_normalize_source b.sourceName) reason] } := by
      rw [List.foldlM_cons, hstep1, except_bind_ok, List.foldlM_cons, hstep2,
        except_bind_ok, List.foldlM_nil]
      rfl
    have hne' : st'.new_entries ≠ [] := fun h => hne ((hnemp h).2)
    have hobj : ∀ kv ∈ st'.new_entries, ∃ f, (kv : String × Json).2 = .obj f := by
      intro kv hkv
      rcases hmem kv hkv with h | h
      · simp at h
      · exact h
    obtain ⟨merged, hm⟩ := merge_pairs_ok st'.new_entries eps hepsObj hobj
    refine ⟨if st'.history_records.isEmpty then
        write_rates fs
          (.obj [("pairs", .obj merged), ("last_refresh", .str refreshedAt)])
      else append_history
        (write_rates fs
          (.obj [("pairs", .obj merged), ("last_refresh", .str refreshedAt)]))
        st'.history_records, ?_⟩
    unfold run_update
    try dsimp only
    rw [hfoldall]
    try dsimp only
    rw [isEmpty_eq_false_of_ne_nil hne']
    try dsimp only [Bool.false_eq_true, if_false]
    rw [hcf]
    try dsimp only
    rw [heps]
    try dsimp only [Option.getD]
    rw [hm]
    try dsimp only
    rw [herr, htot]
    rw [Nat.zero_add]
    rfl

/-- Witness for C5: a failing first source and a surviving one-pair source
over an absent cache file. -/
theorem C5_partial_failure_tolerance_witness :
    ∃ fs', run_update
        [⟨"api1", .error "boom", "t"⟩,
         ⟨"api2", .ok [("BTC_USD", .obj [("rate", .num 5)])],
          "2024-01-01T00:00:00+00:00"⟩] none "r" ⟨none, none, none, none⟩
      = (.ok ⟨[("BTC_USD", Json.obj [("rate", Json.num 5)])].length,
          [fetchFailMsg (_normalize_source "api1") "boom"], "r"⟩, fs') :=
  (C5_partial_failure_tolerance
    ⟨"api1", .error "boom", "t"⟩
    ⟨"api2", .ok [("BTC_USD", .obj [("rate", .num 5)])],
      "2024-01-01T00:00:00+00:00"⟩ "r" ⟨none, none, none, none⟩ "boom"
    [("BTC_USD", .obj [("rate", .num 5)])]
    (by decide) (by decide)
    (by
      intro p hp
      rw [List.mem_singleton] at hp
      subst hp
      decide)).1 rfl rfl

/-- The parsed updated_at timestamp of a stored pair value, when the value
is a dict whose updated_at parses. -/
def entryTs : Option Json → Option ℤ
  | some (.obj f) => parse_iso_datetime ((dget f "updated_at").getD .null)
  | _ => none

theorem dget_some_ne_nil {α : Type} (l : List (String × α)) (k : String)
    (v : α) (h : dget l k = some v) : l ≠ [] := by
  intro he
  subst he
  simp [dget] at h

theorem merge_step_ts (existing : List (String × Json)) (pe : String × Json)
    (ex' : List (String × Json))
    (h : (do
        let accept ←
          match dget existing pe.1 with
          | none => pure true
          | some ov =>
              if truthy ov then
                match ov with
                | .obj of =>
                    match pe.2 with
                    | .obj nf => pure (is_newer nf of)
                    | _ => throw .attributeError
                | _ => throw .attributeError
              else pure true
        pure (if accept then dset existing pe.1 pe.2 else existing)
        : Except PyError (List (String × Json))) = .ok ex')
    (k : String) (told : ℤ) (ht : entryTs (dget existing k) = some told) :
    ∃ t1, entryTs (dget ex' k) = some t1 ∧ told ≤ t1 := by
  by_cases hk : pe.1 = k
  · subst hk
    rcases hdg : dget existing pe.1 with _ | ov
    · rw [hdg] at ht; simp [entryTs] at ht
    · rw [hdg] at h ht
      rcases ov with _ | _ | _ | _ | _ | of
      · simp [entryTs] at ht
      · simp [entryTs] at ht
      · simp [entryTs] at ht
      · simp [entryTs] at ht
      · simp [entryTs] at ht
      simp only [entryTs] at ht
      have hde : ∃ dv, dget of "updated_at" = some dv := by
        rcases hdd : dget of "updated_at" with _ | dv
        · rw [hdd] at ht
          simp [parse_iso_datetime] at ht
        · exact ⟨dv, rfl⟩
      have htr : truthy (.obj of) = true := by
        obtain ⟨dv, hdv⟩ := hde
        have := dget_some_ne_nil of "updated_at" dv hdv
        simp [truthy, List.isEmpty_iff, this]
      dsimp only at h
      rw [if_pos htr] at h
      rcases hp2 : pe.2 with _ | _ | _ | _ | _ | nf
      all_goals rw [hp2] at h
      · simp [Bind.bind, Except.bind] at h
      · simp [Bind.bind, Except.bind] at h
      · simp [Bind.bind, Except.bind] at h
      · simp [Bind.bind, Except.bind] at h
      · simp [Bind.bind, Except.bind] at h
      simp only [except_pure_bind] at h
      injection h with hex'
      by_cases hin : is_newer nf of = true
      · rcases hpn : parse_iso_datetime ((dget nf "updated_at").getD .null)
            with _ | nt
        · rw [is_newer, hpn] at hin
          simp at hin
        · refine ⟨nt, ?_, ?_⟩
          · rw [← hex', if_pos hin, dget_dset_self]
            simp [entryTs, hpn]
          · rw [is_newer, hpn, ht] at hin
            simp only [decide_eq_true_eq, gt_iff_lt] at hin
            exact le_of_lt hin
      · refine ⟨told, ?_, le_refl told⟩
        rw [← hex', if_neg hin, hdg]
        simp [entryTs, ht]
  · have hunch : dget ex' k = dget existing k := by
      rcases hdg : dget existing pe.1 with _ | ov
      · rw [hdg] at h
        simp only [except_pure_bind] at h
        injection h with h2
        rw [if_pos trivial] at h2
        rw [← h2, dget_dset_other _ _ _ _ hk]
      · rw [hdg] at h
        dsimp only at h
        by_cases htr : truthy ov = true
        · rw [if_pos htr] at h
          rcases ov with _ | _ | _ | _ | _ | of
          · simp [Bind.bind, Except.bind] at h
          · simp [Bind.bind, Except.bind] at h
          · simp [Bind.bind, Except.bind] at h
          · simp [Bind.bind, Except.bind] at h
          · simp [Bind.bind, Except.bind] at h
          rcases hp2 : pe.2 with _ | _ | _ | _ | _ | nf
          all_goals rw [hp2] at h
          · simp [Bind.bind, Except.bind] at h
          · simp [Bind.bind, Except.bind] at h
          · simp [Bind.bind, Except.bind] at h
          · simp [Bind.bind, Except.bind] at h
          · simp [Bind.bind, Except.bind] at h
          simp only [except_pure_bind] at h
          injection h with h2
          rw [← h2]
          by_cases hin : is_newer nf of = true
          · rw [if_pos hin, ← hp2, dget_dset_other _ _ _ _ hk]
          · rw [if_neg hin]
        · rw [if_neg htr] at h
          simp only [except_pure_bind] at h
          injection h with h2
          rw [if_pos trivial] at h2
          rw [← h2, dget_dset_other _ _ _ _ hk]
    exact ⟨told, by rw [hunch]; exact ht, le_refl told⟩

theorem merge_preserves_ts (news existing merged : List (String × Json))
    (h : merge_pairs existing news = .ok merged) (k : String) (told : ℤ)
    (ht : entryTs (dget existing k) = some told) :
    ∃ tnew, entryTs (dget merged k) = some tnew ∧ told ≤ tnew := by
  induction news generalizing existing told with
  | nil =>
      unfold merge_pairs at h
      rw [List.foldlM_nil] at h
      cases h
      exact ⟨told, ht, le_refl told⟩
  | cons pe rest ih =>
      unfold merge_pairs at h
      rw [List.foldlM_cons] at h
      rcases hS : (do
          let accept ←
            match dget existing pe.1 with
            | none => pure true
            | some ov =>
                if truthy ov then
                  match ov with
                  | .obj of =>
                      match pe.2 with
                      | .obj nf => pure (is_newer nf of)
                      | _ => throw .attributeError
                  | _ => throw .attributeError
                else pure true
          pure (if accept then dset existing pe.1 pe.2 else existing)
          : Except PyError (List (String × Json))) with e | ex'
      · rw [hS] at h
        exact absurd h (by simp [Bind.bind, Except.bind])
      · rw [hS, except_bind_ok] at h
        obtain ⟨t1, ht1, hle1⟩ := merge_step_ts existing pe ex' hS k told ht
        obtain ⟨tnew, ht2, hle2⟩ := ih ex' h t1 ht1
        exact ⟨tnew, ht2, le_trans hle1 hle2⟩

/-- C2 counterexample: a stored entry whose updated_at does not parse is
overwritten by a candidate with a valid timestamp - the code treats an
unparseable STORED side as older, not the candidate, so "missing/unparseable
timestamp on either side discards the candidate" is false. -/
theorem C2_counterexample :
    is_newer
        [("rate", .num 2), ("updated_at", .str "2024-01-02T00:00:00+00:00")]
        [("rate", .num 1), ("updated_at", .str "not-a-date")] = true
    ∧ merge_pairs
        [("BTC_USD", .obj [("rate", .num 1), ("updated_at", .str "not-a-date")])]
        [("BTC_USD", .obj
          [("rate", .num 2), ("updated_at", .str "2024-01-02T00:00:00+00:00")])]
      = .ok [("BTC_USD", .obj
          [("rate", .num 2),
           ("updated_at", .str "2024-01-02T00:00:00+00:00")])] :=
  ⟨rfl, rfl⟩

/-- C2 amended: a candidate whose own timestamp is missing or unparseable is
discarded; a candidate with a valid timestamp wins against a stored entry
whose timestamp is missing or unparseable; when both sides parse, the
candidate wins exactly when strictly newer - hence whenever the stored
timestamp parses before and after a merge, it never decreases. -/
theorem C2_amended :
    (∀ newE oldE : List (String × Json),
        parse_iso_datetime ((dget newE "updated_at").getD .null) = none →
        is_newer newE oldE = false)
    ∧ (∀ (newE oldE : List (String × Json)) (nt : ℤ),
        parse_iso_datetime ((dget newE "updated_at").getD .null) = some nt →
        parse_iso_datetime ((dget oldE "updated_at").getD .null) = none →
        is_newer newE oldE = true)
    ∧ (∀ (newE oldE : List (String × Json)) (nt ot : ℤ),
        parse_iso_datetime ((dget newE "updated_at").getD .null) = some nt →
        parse_iso_datetime ((dget oldE "updated_at").getD .null) = some ot →
        (is_newer newE oldE = true ↔ ot < nt))
    ∧ (∀ (existing news merged : List (String × Json)) (k : String)
        (told tnew : ℤ),
        merge_pairs existing news = .ok merged →
        entryTs (dget existing k) = some told →
        entryTs (dget merged k) = some tnew →
        told ≤ tnew) := by
  refine ⟨?_, ?_, ?_, ?_⟩
  · intro newE oldE h
    rw [is_newer, h]
  · intro newE oldE nt h1 h2
    rw [is_newer, h1, h2]
  · intro newE oldE nt ot h1 h2
    rw [is_newer, h1, h2]
    simp
  · intro existing news merged k told tnew hm ht1 ht2
    obtain ⟨t', ht', hle⟩ := merge_preserves_ts news existing merged hm k told ht1
    rw [ht'] at ht2
    cases ht2
    exact hle

/-- Witness for C2 amended, at concrete entries and a concrete merge. -/
theorem C2_amended_witness :
    is_newer [("updated_at", .str "nope")] [] = false
    ∧ is_newer [("updated_at", .str "2024-01-02T00:00:00+00:00")]
        [("updated_at", .str "nope")] = true
    ∧ (is_newer [("updated_at", .str "2024-01-02T01:00:00+00:00")]
        [("updated_at", .str "2024-01-02T00:00:00+00:00")] = true
        ↔ (1704153600000000 : ℤ) < 1704157200000000)
    ∧ (1704153600000000 : ℤ) ≤ 1704153600000000 := by
  refine ⟨C2_amended.1 _ _ rfl, C2_amended.2.1 _ _ 1704153600000000 rfl rfl,
    C2_amended.2.2.1 _ _ 1704157200000000 1704153600000000 rfl rfl,
    C2_amended.2.2.2
      [("BTC_USD", .obj [("updated_at", .str "2024-01-02T00:00:00+00:00")])]
      [("BTC_USD", .obj [("updated_at", .str "2024-01-02T00:00:00+00:00")])]
      [("BTC_USD", .obj [("updated_at", .str "2024-01-02T00:00:00+00:00")])]
      "BTC_USD" 1704153600000000 1704153600000000 rfl rfl rfl⟩

/-- C3 counterexample: the cache value is the non-empty dict with empty
"pairs"; it is stale and the refresh stub fails, yet get_exchange_rate with
distinct codes raises a lookup ValueError instead of returning a stale
conversion result with a warning. -/
theorem C3_counterexample :
    _is_rates_fresh [("pairs", .obj [])] 0 300 = false
    ∧ [("pairs", Json.obj [])] ≠ ([] : List (String × Json))
    ∧ get_exchange_rate "EUR" "USD" (.obj [("pairs", .obj [])]) 0 300
      = .error (.valueError ("Не удалось получить курс для EUR")) :=
  ⟨rfl, by decide, rfl⟩

/-- C3 amended: with distinct registered codes and a stale cache, the
refresh stub fails; if the cache dict is empty the ApiRequestError
propagates as a hard error; if it is non-empty AND both codes have pivot
rates with a nonzero divisor, the result carries stale = true and the
refresh-failure warning; a non-empty cache lacking either pivot rate raises
a lookup ValueError instead. -/
theorem C3_amended (from_code to_code : String) (cf : List (String × Json))
    (now : ℤ) (ttl : ℤ) (nf nt : String)
    (h1 : get_currency from_code = .ok nf) (h2 : get_currency to_code = .ok nt)
    (hne : nf ≠ nt) (hstale : _is_rates_fresh cf now ttl = false) :
    (cf = [] → get_exchange_rate from_code to_code (.obj cf) now ttl
        = .error (.apiRequestError refreshUnavailableMsg))
    ∧ (∀ fr tr : ℚ, dget (_build_usd_rates cf) nf = some fr →
        dget (_build_usd_rates cf) nt = some tr → tr ≠ 0 → cf ≠ [] →
        get_exchange_rate from_code to_code (.obj cf) now ttl
          = .ok ⟨nf, nt, fr / tr, (dget cf "last_refresh").getD .null,
              if fr / tr = 0 then none else some (1 / (fr / tr)),
              true, some (apiRequestErrorStr refreshUnavailableMsg)⟩)
    ∧ (cf ≠ [] → dget (_build_usd_rates cf) nf = none →
        get_exchange_rate from_code to_code (.obj cf) now ttl
          = .error (.valueError ("Не удалось получить курс для " ++ nf)))
    ∧ (∀ fr : ℚ, cf ≠ [] → dget (_build_usd_rates cf) nf = some fr →
        dget (_build_usd_rates cf) nt = none →
        get_exchange_rate from_code to_code (.obj cf) now ttl
          = .error (.valueError ("Не удалось получить курс для " ++ nt))) := by
  have hcommon : ∀ (res : Except PyError RateResult),
      (cf ≠ [] →
        (match dget (_build_usd_rates cf) nf with
          | none => throw (.valueError ("Не удалось получить курс для " ++ nf))
          | some from_to_usd =>
            match dget (_build_usd_rates cf) nt with
            | none => throw (.valueError ("Не удалось получить курс для " ++ nt))
            | some to_to_usd =>
              if to_to_usd = 0 then
                throw (.valueError ("Некорректный курс для валюты " ++ nt))
              else
                pure ⟨nf, nt, from_to_usd / to_to_usd,
                  (dget cf "last_refresh").getD .null,
                  if from_to_usd / to_to_usd = 0 then none
                  else some (1 / (from_to_usd / to_to_usd)),
                  true, some (apiRequestErrorStr refreshUnavailableMsg)⟩
          : Except PyError RateResult) = res) →
      (cf ≠ [] →
        get_exchange_rate from_code to_code (.obj cf) now ttl = res) := by
    intro res hres hcf
    unfold get_exchange_rate
    rw [h1, h2]
    show (if nf = nt then _ else _) = _
    rw [if_neg hne]
    show (do
      let staleWarnFields ←
        if _is_rates_fresh cf now ttl then
          pure (false, (none : Option String), cf)
        else
          match _refresh_rates_cache (.obj cf) with
          | .ok refreshed =>
              match refreshed with
              | .obj f => pure (false, none, f)
              | _ => throw PyError.attributeError
          | .error e =>
              match e with
              | .apiRequestError reason =>
                  if cf.isEmpty then throw e
                  else pure (true, some (apiRequestErrorStr reason), cf)
              | _ => throw e
      _ : Except PyError RateResult) = res
    rw [hstale]
    simp only [Bool.false_eq_true, if_false]
    dsimp only [_refresh_rates_cache]
    rw [isEmpty_eq_false_of_ne_nil hcf]
    simp only [Bool.false_eq_true, if_false]
    rw [except_pure_bind]
    exact hres hcf
  refine ⟨?_, ?_, ?_, ?_⟩
  · intro hcf
    subst hcf
    unfold get_exchange_rate
    rw [h1, h2]
    show (if nf = nt then _ else _) = _
    rw [if_neg hne]
    rfl
  · intro fr tr hfr htr htr0 hcf
    refine hcommon _ ?_ hcf
    intro _
    rw [hfr, htr]
    dsimp only
    rw [if_neg htr0]
    rfl
  · intro hcf hfr
    refine hcommon _ ?_ hcf
    intro _
    rw [hfr]
    rfl
  · intro fr hcf hfr htn
    refine hcommon _ ?_ hcf
    intro _
    rw [hfr, htn]
    rfl

/-- Witness for C3 amended: empty cache propagates the refresh failure;
a stale one-pair cache returns the stale result with warning; the same
cache with an unknown to-code raises the lookup error naming it. -/
theorem C3_amended_witness :
    get_exchange_rate "EUR" "USD" (.obj []) 0 300
      = .error (.apiRequestError refreshUnavailableMsg)
    ∧ get_exchange_rate "EUR" "USD"
        (.obj [("pairs", .obj [("EUR_USD", .obj [("rate", .num 2)])])]) 0 300
      = .ok ⟨"EUR", "USD", 2 / 1, .null,
          if (2 : ℚ) / 1 = 0 then none else some (1 / ((2 : ℚ) / 1)),
          true, some (apiRequestErrorStr refreshUnavailableMsg)⟩
    ∧ get_exchange_rate "EUR" "BTC"
        (.obj [("pairs", .obj [("EUR_USD", .obj [("rate", .num 2)])])]) 0 300
      = .error (.valueError ("Не удалось получить курс для " ++ "BTC")) :=
  ⟨(C3_amended "EUR" "USD" [] 0 300 "EUR" "USD" rfl rfl (by decide) rfl).1 rfl,
   ((C3_amended "EUR" "USD" [("pairs", .obj [("EUR_USD", .obj [("rate", .num 2)])])]
      0 300 "EUR" "USD" rfl rfl (by decide) rfl).2.1 2 1 rfl rfl
      (by decide) (by decide)),
   ((C3_amended "EUR" "BTC" [("pairs", .obj [("EUR_USD", .obj [("rate", .num 2)])])]
      0 300 "EUR" "BTC" rfl rfl (by decide) rfl).2.2.2 2
      (by decide) rfl rfl)⟩

/-- The rate_to_base computed by _calc_base_conversion once the wallet's
rate_to_usd is known. -/
def rateToBase (nb : String) (er : List (String × ℚ)) (r : ℚ) : Option ℚ :=
  if nb = "USD" then some r
  else
    match dget er nb with
    | some b => if b ≠ 0 then some (r / b) else none
    | none => none

theorem walletStep_none (nb : String) (er : List (String × ℚ))
    (acc : List WalletReport) (w : String × ℚ) (h : dget er w.1 = none) :
    walletStep nb er acc w
      = .error (.valueError ("Нет курса для валюты \u0027" ++ w.1 ++ "\u0027")) := by
  unfold walletStep _calc_base_conversion
  dsimp only
  rw [h]
  rfl

theorem walletStep_some (nb : String) (er : List (String × ℚ))
    (acc : List WalletReport) (w : String × ℚ) (r : ℚ)
    (hup : pyUpper nb = nb) (h : dget er w.1 = some r) :
    walletStep nb er acc w
      = .ok (acc ++ [WalletReport.mk w.1 w.2
          (((rateToBase nb er r).map (fun rb => w.2 * rb)).getD 0)]) := by
  unfold walletStep _calc_base_conversion rateToBase
  dsimp only
  rw [hup, h]
  rfl

theorem totalStep_none (er : List (String × ℚ)) (t0 : ℚ) (w : String × ℚ)
    (h : dget er w.1 = none) :
    totalStep er t0 w = .error (.valueError ("Нет курса для валюты " ++ w.1)) := by
  unfold totalStep
  rw [h]
  rfl

theorem totalStep_some (er : List (String × ℚ)) (t0 : ℚ) (w : String × ℚ)
    (r : ℚ) (h : dget er w.1 = some r) :
    totalStep er t0 w = .ok (t0 + w.2 * r) := by
  unfold totalStep
  rw [h]
  rfl

theorem wallets_value_total (nb : String) (er : List (String × ℚ)) (cf : ℚ)
    (hup : pyUpper nb = nb)
    (hcf : (nb = "USD" ∧ cf = 1)
      ∨ (∃ b0, dget er nb = some b0 ∧ b0 ≠ 0 ∧ cf = 1 / b0 ∧ nb ≠ "USD")) :
    ∀ (wallets : List (String × ℚ)) (acc : List WalletReport) (t0 : ℚ)
      (infos : List WalletReport) (totUsd : ℚ),
    wallets.foldlM (walletStep nb er) acc = .ok infos →
    wallets.foldlM (totalStep er) t0 = .ok totUsd →
    (infos.map (fun w => w.value_in_base)).sum + cf * t0
      = (acc.map (fun w => w.value_in_base)).sum + cf * totUsd := by
  intro wallets
  induction wallets with
  | nil =>
      intro acc t0 infos totUsd h1 h2
      rw [List.foldlM_nil] at h1 h2
      cases h1
      cases h2
      rfl
  | cons w ws ih =>
      intro acc t0 infos totUsd h1 h2
      rw [List.foldlM_cons] at h1 h2
      rcases hw : dget er w.1 with _ | r
      · rw [walletStep_none nb er acc w hw] at h1
        simp [Bind.bind, Except.bind] at h1
      · rw [walletStep_some nb er acc w r hup hw, except_bind_ok] at h1
        rw [totalStep_some er t0 w r hw, except_bind_ok] at h2
        have hrec := ih _ _ infos totUsd h1 h2
        have hval : ((rateToBase nb er r).map (fun rb => w.2 * rb)).getD 0
            = cf * (w.2 * r) := by
          rcases hcf with ⟨husd, hcf1⟩ | ⟨b0, hb0, hb0ne, hcfb, hnusd⟩
          · rw [rateToBase, if_pos husd, hcf1]
            simp
          · rw [rateToBase, if_neg hnusd, hb0, hcfb]
            simp only [if_pos hb0ne, Option.map_some, Option.getD_some]
            field_simp
            try ring
        rw [List.map_append, List.sum_append] at hrec
        simp only [List.map_cons, List.map_nil, List.sum_cons, List.sum_nil,
          add_zero] at hrec
        rw [hval, mul_add] at hrec
        linarith

/-- C7: whenever show_portfolio succeeds (base normalization already in
canonical strip/upper form), the returned total_in_base is the sum of the
per-wallet value_in_base entries, and an empty portfolio yields an empty
per-wallet list and total 0. -/
theorem C7_portfolio_total (wallets : List (String × ℚ))
    (base_currency : Option String) (default_base : String)
    (rates_data : Json) (report : PortfolioReport)
    (hup : pyUpper (normBaseOf base_currency default_base)
      = normBaseOf base_currency default_base)
    (htr : pyStrip (normBaseOf base_currency default_base)
      = normBaseOf base_currency default_base)
    (hok : show_portfolio wallets base_currency default_base rates_data
      = .ok report) :
    report.total_in_base
      = (report.wallets.map (fun w => w.value_in_base)).sum
    ∧ (wallets = [] → report.wallets = [] ∧ report.total_in_base = 0) := by
  unfold show_portfolio at hok
  rcases hlr : _load_exchange_rates rates_data with e | er
  all_goals rw [hlr] at hok
  · simp [Bind.bind, Except.bind] at hok
  rw [except_bind_ok] at hok
  try dsimp only at hok
  by_cases hbm : dmem er (normBaseOf base_currency default_base) = true
  swap
  · rw [if_pos (by simp [hbm])] at hok
    simp [throw, throwThe, MonadExceptOf.throw] at hok
  rw [if_neg (by simp [hbm])] at hok
  rcases hloop : wallets.foldlM
      (walletStep (normBaseOf base_currency default_base) er) [] with e | infos
  all_goals rw [hloop] at hok
  · simp [Bind.bind, Except.bind] at hok
  rw [except_bind_ok] at hok
  rcases htv : get_total_value wallets (normBaseOf base_currency default_base) er
      with e | tot
  all_goals rw [htv] at hok
  · simp [Bind.bind, Except.bind] at hok
  rw [except_bind_ok] at hok
  injection hok with hok
  subst hok
  unfold get_total_value at htv
  rw [htr, hup] at htv
  by_cases hemp : er.isEmpty = true
  · rw [if_pos hemp] at htv
    simp [throw, throwThe, MonadExceptOf.throw] at htv
  rw [if_neg hemp] at htv
  by_cases hnbe : normBaseOf base_currency default_base = ""
  · rw [if_pos hnbe] at htv
    simp [throw, throwThe, MonadExceptOf.throw] at htv
  rw [if_neg hnbe] at htv
  rw [if_neg (by simp [hbm])] at htv
  rcases htotf : wallets.foldlM (totalStep er) 0 with e | totUsd
  all_goals rw [htotf] at htv
  · simp [Bind.bind, Except.bind] at htv
  rw [except_bind_ok] at htv
  have hmain : ∀ cf : ℚ,
      ((normBaseOf base_currency default_base = "USD" ∧ cf = 1)
        ∨ (∃ b0, dget er (normBaseOf base_currency default_base) = some b0
            ∧ b0 ≠ 0 ∧ cf = 1 / b0
            ∧ normBaseOf base_currency default_base ≠ "USD")) →
      (infos.map (fun w => w.value_in_base)).sum = cf * totUsd := by
    intro cf hcf
    have := wallets_value_total (normBaseOf base_currency default_base) er cf
      hup hcf wallets [] 0 infos totUsd hloop htotf
    simpa using this
  by_cases husd : normBaseOf base_currency default_base = "USD"
  · rw [if_pos husd] at htv
    injection htv with htv
    subst htv
    constructor
    · rw [hmain 1 (Or.inl ⟨husd, rfl⟩)]
      simp
    · intro he
      subst he
      rw [List.foldlM_nil] at hloop htotf
      cases hloop
      cases htotf
      exact ⟨rfl, rfl⟩
  · rw [if_neg husd] at htv
    rcases hb : dget er (normBaseOf base_currency default_base) with _ | b0
    all_goals rw [hb] at htv
    · simp [throw, throwThe, MonadExceptOf.throw] at htv
    dsimp only at htv
    by_cases hb0 : b0 = 0
    · rw [if_pos hb0] at htv
      simp [throw, throwThe, MonadExceptOf.throw] at htv
    rw [if_neg hb0] at htv
    injection htv with htv
    subst htv
    constructor
    · rw [hmain (1 / b0) (Or.inr ⟨b0, hb, hb0, rfl, husd⟩)]
      field_simp
    · intro he
      subst he
      rw [List.foldlM_nil] at hloop htotf
      cases hloop
      cases htotf
      exact ⟨rfl, by simp⟩

/-- Witness for C7: a one-wallet USD portfolio valued in USD. -/
theorem C7_portfolio_total_witness :
    show_portfolio [("USD", 100)] (some "USD") "USD"
        (.obj [("pairs", .obj [("EUR_USD", .obj [("rate", .num 2)])])])
      = .ok ⟨[⟨"USD", 100, 100 * 1⟩], "USD", 0 + 100 * 1⟩
    ∧ ((0 : ℚ) + 100 * 1)
      = (([⟨"USD", (100 : ℚ), 100 * 1⟩] : List WalletReport).map
          (fun w => w.value_in_base)).sum :=
  ⟨rfl,
   (C7_portfolio_total [("USD", 100)] (some "USD") "USD"
      (.obj [("pairs", .obj [("EUR_USD", .obj [("rate", .num 2)])])])
      ⟨[⟨"USD", 100, 100 * 1⟩], "USD", 0 + 100 * 1⟩ rfl rfl rfl).1⟩

theorem walletStep_first_missing (nb : String) (er : List (String × ℚ)) :
    ∀ (wallets : List (String × ℚ)) (acc : List WalletReport),
    (∃ w ∈ wallets, dget er (w : String × ℚ).1 = none) →
    ∃ c, dget er c = none ∧ (∃ bal, (c, bal) ∈ wallets)
      ∧ wallets.foldlM (walletStep nb er) acc
        = .error (.valueError ("Нет курса для валюты \u0027" ++ c ++ "\u0027")) := by
  intro wallets
  induction wallets with
  | nil =>
      intro acc h
      simp at h
  | cons w ws ih =>
      intro acc hmiss
      rcases hw : dget er w.1 with _ | r
      · refine ⟨w.1, hw, ⟨w.2, by simp⟩, ?_⟩
        rw [List.foldlM_cons, walletStep_none nb er acc w hw]
        rfl
      · have hmiss' : ∃ w' ∈ ws, dget er (w' : String × ℚ).1 = none := by
          rcases hmiss with ⟨w', hw', hnone⟩
          rcases List.mem_cons.mp hw' with h | h
          · subst h
            rw [hw] at hnone
            cases hnone
          · exact ⟨w', h, hnone⟩
        obtain ⟨acc', hstep⟩ : ∃ acc', walletStep nb er acc w = .ok acc' := by
          unfold walletStep _calc_base_conversion
          dsimp only
          rw [hw]
          exact ⟨_, rfl⟩
        obtain ⟨c, hc1, ⟨bal, hc2⟩, hc3⟩ := ih acc' hmiss'
        refine ⟨c, hc1, ⟨bal, List.mem_cons_of_mem _ hc2⟩, ?_⟩
        rw [List.foldlM_cons, hstep, except_bind_ok]
        exact hc3

/-- C8: if any wallet's currency has no rate in the pivot table, the whole
valuation fails with a ValueError naming a missing wallet currency, and no
per-wallet report is returned. -/
theorem C8_portfolio_all_or_nothing (wallets : List (String × ℚ))
    (base_currency : Option String) (default_base : String)
    (rates_data : Json) (er : List (String × ℚ))
    (hlr : _load_exchange_rates rates_data = .ok er)
    (hbase : dmem er (normBaseOf base_currency default_base) = true)
    (hmiss : ∃ w ∈ wallets, dget er (w : String × ℚ).1 = none) :
    ∃ c, dget er c = none ∧ (∃ bal, (c, bal) ∈ wallets)
      ∧ show_portfolio wallets base_currency default_base rates_data
        = .error (.valueError ("Нет курса для валюты \u0027" ++ c ++ "\u0027")) := by
  obtain ⟨c, hc1, hc2, hc3⟩ := walletStep_first_missing
    (normBaseOf base_currency default_base) er wallets [] hmiss
  refine ⟨c, hc1, hc2, ?_⟩
  unfold show_portfolio
  rw [hlr, except_bind_ok]
  try dsimp only
  rw [if_neg (by simp [hbase])]
  rw [hc3]
  rfl

/-- Witness for C8: a BTC wallet against a cache that only knows EUR/USD. -/
theorem C8_portfolio_all_or_nothing_witness :
    ∃ c, dget [("USD", (1 : ℚ)), ("EUR", 2)] c = none
      ∧ (∃ bal, (c, bal) ∈ [("BTC", (1 : ℚ))])
      ∧ show_portfolio [("BTC", 1)] (some "USD") "USD"
          (.obj [("pairs", .obj [("EUR_USD", .obj [("rate", .num 2)])])])
        = .error (.valueError ("Нет курса для валюты \u0027" ++ c ++ "\u0027")) :=
  C8_portfolio_all_or_nothing [("BTC", 1)] (some "USD") "USD"
    (.obj [("pairs", .obj [("EUR_USD", .obj [("rate", .num 2)])])])
    [("USD", 1), ("EUR", 2)] rfl rfl
    ⟨("BTC", 1), by simp, rfl⟩

end VTH
